import Mathlib

/-!
Verification of the HTML-to-EPUB conversion scripts (src/html_to_epub.py and
src/prepare_html.py) against their natural-language specification.

The scripts are shallowly embedded: the parsed HTML document is modelled as a
node tree (the BeautifulSoup object after parsing), the on-disk filesystem as
an association list from path to raw file content, and the already-parsed HTML
documents on disk as an association list from path to node tree.  File writes
and directory creation are modelled by recording the produced data in result
structures.  HTML parsing and serialization (BeautifulSoup and str) are
delegated in the source to an off-the-shelf library and are not modelled:
functions take and return node trees where the source takes and returns
strings of HTML.
-/

/-- Attribute dictionary of an HTML element.  BeautifulSoup stores a dict from
attribute name to value; it is modelled as an association list. -/
abbrev Attrs := List (String × String)

/-- Lookup of an attribute value, as dictionary access in the source. -/
def attrLookup : Attrs → String → Option String
  | [], _ => none
  | (k, v) :: rest, key => if k = key then some v else attrLookup rest key

/-- Models dict.get with a default, as in img.get with default empty string. -/
def attrGetD (a : Attrs) (key dflt : String) : String :=
  (attrLookup a key).getD dflt

/-- Models dict assignment of an attribute value. -/
def setAttr : Attrs → String → String → Attrs
  | [], key, v => [(key, v)]
  | (k, w) :: rest, key, v =>
    if k = key then (key, v) :: rest else (k, w) :: setAttr rest key v

/-- Models del of an attribute key. -/
def delAttr : Attrs → String → Attrs
  | [], _ => []
  | (k, v) :: rest, key =>
    if k = key then delAttr rest key else (k, v) :: delAttr rest key

mutual
/-- A node of the parsed HTML tree: an element with a tag name, attributes and
children, or a text node. -/
inductive Node where
  | element (tag : String) (attrs : Attrs) (children : NodeList)
  | text (s : String)

/-- A list of sibling nodes. -/
inductive NodeList where
  | nil
  | cons (hd : Node) (tl : NodeList)
end

/-- Builds a NodeList from an ordinary list, for writing concrete documents. -/
def nodes : List Node → NodeList
  | [] => .nil
  | n :: ns => .cons n (nodes ns)

/-- Children of a node (a text node has none). -/
def childrenOf : Node → NodeList
  | .text _ => .nil
  | .element _ _ cs => cs

mutual
/-- First node in the list, in document (preorder) order, satisfying the
predicate; also searches descendants.  Models the traversal of
BeautifulSoup find. -/
def findIn (p : Node → Bool) : NodeList → Option Node
  | .nil => none
  | .cons n rest =>
    if p n then some n
    else
      match findSub p n with
      | some r => some r
      | none => findIn p rest

/-- First descendant of the node satisfying the predicate, the node itself
excluded, as BeautifulSoup find searches descendants only. -/
def findSub (p : Node → Bool) : Node → Option Node
  | .text _ => none
  | .element _ _ cs => findIn p cs
end

/-- Models soup.find: searches the descendants of the given node. -/
def soupFind (p : Node → Bool) (n : Node) : Option Node :=
  findSub p n

/-- Is the node a div element whose id attribute equals the given value?  Used
to model soup.find with a tag name and an id filter. -/
def isDivWithId (idv : String) (n : Node) : Bool :=
  match n with
  | .element tag a _ => tag == "div" && attrLookup a "id" == some idv
  | .text _ => false

/-- Is the node an element with the given tag?  Used to model soup.body. -/
def isTagB (t : String) (n : Node) : Bool :=
  match n with
  | .element tag _ _ => tag == t
  | .text _ => false

/-- Removes every element whose tag is in the list from a list of nodes and
all their descendants.  Models calling decompose on every element returned by
find_all over these tag names. -/
def removeTagsIn (ts : List String) : NodeList → NodeList
  | .nil => .nil
  | .cons (.text s) rest => .cons (.text s) (removeTagsIn ts rest)
  | .cons (.element tag a cs) rest =>
    if ts.contains tag then removeTagsIn ts rest
    else .cons (.element tag a (removeTagsIn ts cs)) (removeTagsIn ts rest)

/-- Removes every matching descendant element of the node; the node itself is
kept, since find_all on a node returns descendants only. -/
def removeTags (ts : List String) : Node → Node
  | .text s => .text s
  | .element tag a cs => .element tag a (removeTagsIn ts cs)

/-- Does the list of nodes contain (at any depth) an element with this tag? -/
def containsTagIn (t : String) : NodeList → Bool
  | .nil => false
  | .cons (.text _) rest => containsTagIn t rest
  | .cons (.element tag _ cs) rest =>
    (tag == t) || containsTagIn t cs || containsTagIn t rest

/-- Does the node or one of its descendants carry this tag? -/
def containsTag (t : String) : Node → Bool
  | .text _ => false
  | .element tag _ cs => (tag == t) || containsTagIn t cs

/-- Does the list of nodes contain (at any depth) an element with this tag and
exactly these attributes? -/
def hasElemIn (t : String) (a : Attrs) : NodeList → Bool
  | .nil => false
  | .cons (.text _) rest => hasElemIn t a rest
  | .cons (.element tag b cs) rest =>
    (decide (tag = t) && decide (b = a)) || hasElemIn t a cs || hasElemIn t a rest

/-- Replaces every non-overlapping occurrence of the two-character pattern
dot slash by the empty string, scanning left to right.  Models the call
src.replace of the pattern with the empty string in both scripts. -/
def replDS : List Char → List Char
  | '.' :: '/' :: rest => replDS rest
  | c :: rest => c :: replDS rest
  | [] => []

/-- String version of the dot-slash removal. -/
def replaceDotSlash (s : String) : String :=
  String.mk (replDS s.data)

/-- Models os.path.basename for the relative paths the scripts build: the part
after the last slash. -/
def basename (s : String) : String :=
  String.mk ((s.data.reverse.takeWhile (fun c => !(c = '/'))).reverse)

/-- Models os.path.dirname for the relative paths the scripts build: the part
before the last slash, empty when there is none. -/
def dirname (s : String) : String :=
  String.mk (((s.data.reverse.dropWhile (fun c => !(c = '/'))).drop 1).reverse)

/-- Models os.path.join of two components: an absolute second component wins,
otherwise the components are glued with a single slash. -/
def pathJoin (a b : String) : String :=
  match b.data with
  | '/' :: _ => b
  | _ =>
    if a = "" then b
    else
      match a.data.reverse with
      | '/' :: _ => a ++ b
      | _ => a ++ "/" ++ b

/-- The filesystem as seen by the scripts: an association list from path to
raw file content. -/
abbrev FS := List (String × String)

/-- Models os.path.exists over the modelled filesystem. -/
def path_exists (fs : FS) (p : String) : Bool :=
  (fs.lookup p).isSome

/-- The resolved on-disk path of an image reference: the dot-slash-stripped
src joined to the directory of the HTML file.  Both scripts compute it with
the same two lines. -/
def imgPathOf (html_file src : String) : String :=
  pathJoin (dirname html_file) (replaceDotSlash src)

/-- Models mimetypes.guess_type restricted to the image types it recognises by
file extension; none for an unknown extension. -/
def mimetypes_guess_type (p : String) : Option String :=
  if List.isSuffixOf (String.data ".png") p.data then some "image/png"
  else if List.isSuffixOf (String.data ".jpg") p.data then some "image/jpeg"
  else if List.isSuffixOf (String.data ".jpeg") p.data then some "image/jpeg"
  else if List.isSuffixOf (String.data ".gif") p.data then some "image/gif"
  else if List.isSuffixOf (String.data ".svg") p.data then some "image/svg+xml"
  else if List.isSuffixOf (String.data ".webp") p.data then some "image/webp"
  else none

/-- Applies the transform to the attributes of every img element in the list,
at any depth.  Together with collectImgsIn this models the loop over
find_all img that mutates each img in place. -/
def mapImgAttrsIn (f : Attrs → Attrs) : NodeList → NodeList
  | .nil => .nil
  | .cons (.text s) rest => .cons (.text s) (mapImgAttrsIn f rest)
  | .cons (.element tag a cs) rest =>
    .cons (.element tag (if tag == "img" then f a else a) (mapImgAttrsIn f cs))
      (mapImgAttrsIn f rest)

/-- Root version: find_all on the content node returns descendants only, so
the attributes of the node itself are never transformed. -/
def mapImgAttrs (f : Attrs → Attrs) : Node → Node
  | .text s => .text s
  | .element tag a cs => .element tag a (mapImgAttrsIn f cs)

/-- Collects the items emitted for every img element in the list, at any
depth, in document (preorder) order. -/
def collectImgsIn {α : Type} (g : Attrs → List α) : NodeList → List α
  | .nil => []
  | .cons (.text _) rest => collectImgsIn g rest
  | .cons (.element tag a cs) rest =>
    (if tag == "img" then g a else []) ++ collectImgsIn g cs ++ collectImgsIn g rest

/-- Root version of the collection, the node itself excluded. -/
def collectImgs {α : Type} (g : Attrs → List α) : Node → List α
  | .text _ => []
  | .element _ _ cs => collectImgsIn g cs

/-- The CSS stylesheet hardcoded as a string literal in html_to_epub
(the value assigned to style.content); it is not read from any file. -/
def mainCss : String := "
    body \x7b
        font-family: Georgia, serif;
        line-height: 1.6;
        margin: 0;
        padding: 0.5em;
    \x7d
    h1, h2, h3, h4, h5, h6 \x7b
        font-family: Arial, sans-serif;
        margin-top: 0.5em;
        margin-bottom: 0.5em;
    \x7d
    p \x7b
        margin: 0.5em 0;
        text-align: justify;
    \x7d
    img \x7b
        max-width: 100% !important;
        height: auto !important;
        display: block;
        margin: 0.5em auto;
    \x7d
    a \x7b
        color: #0066cc;
        text-decoration: none;
    \x7d
    table \x7b
        border-collapse: collapse;
        width: 100%;
        margin: 1em 0;
    \x7d
    th, td \x7b
        border: 1px solid #999;
        padding: 0.5em;
        text-align: left;
    \x7d
    th \x7b
        background-color: #f0f0f0;
    \x7d
    blockquote \x7b
        margin: 1em 1.5em;
        padding-left: 1em;
        border-left: 3px solid #999;
        font-style: italic;
    \x7d
    .sidebar \x7b
        border: 1px solid #ccc;
        padding: 1em;
        margin: 1em 0;
        background-color: #f9f9f9;
    \x7d
    ul, ol \x7b
        margin: 0.5em 0;
        padding-left: 2em;
    \x7d
    li \x7b
        margin: 0.25em 0;
    \x7d
    "

namespace html_to_epub

/-- An image item added to the EPUB book: file name inside the container, raw
content, and media type (the ebooklib default when the type is unknown is the
empty string, since the source only sets media_type when the guess is
truthy). -/
structure EpubImage where
  file_name : String
  content : String
  media_type : String

/-- The single chapter document added to the book. -/
structure EpubChapter where
  file_name : String
  title : String
  content : Node

/-- The style item added to the book. -/
structure EpubStyle where
  file_name : String
  media_type : String
  content : String

/-- The EPUB book assembled by create_epub_from_html: metadata, image items,
the chapter, the spine (entry names in reading order), the style item, the
table of contents, and the two navigation items. -/
structure EpubBook where
  identifier : String
  title : String
  language : String
  authors : List String
  images : List EpubImage
  chapter : EpubChapter
  spine : List String
  style : EpubStyle
  toc : List String
  ncx_added : Bool
  nav_added : Bool

/-- Embedding of html_to_epub.clean_html_for_epub (lines 27 to 47): remove
script and style elements, then nav, header and footer elements; return the
div with id book-content (its link descendants removed) when present, else
the body, else the whole document.  The final serialization by str is not
modelled: the selected node tree is returned. -/
def clean_html_for_epub (soup : Node) : Node :=
  let soup := removeTags ["script", "style"] soup
  let soup := removeTags ["nav", "header", "footer"] soup
  match soupFind (isDivWithId "book-content") soup with
  | some content_div => removeTags ["link"] content_div
  | none =>
    match soupFind (isTagB "body") soup with
    | some b => b
    | none => soup

/-- Embedding of the body of the loop over find_all img in
html_to_epub.create_epub_from_html (lines 91 to 132), for one img with
attributes a: on a non-empty src whose resolved path exists, rewrite src to
images/ plus the original basename, drop width and height, and emit an image
item carrying the file bytes and the guessed media type; otherwise leave the
attributes alone and emit nothing. -/
def process_image (html_file : String) (fs : FS) (a : Attrs) :
    Attrs × List EpubImage :=
  let src := attrGetD a "src" ""
  if src = "" then (a, [])
  else
    let img_path := imgPathOf html_file src
    if path_exists fs img_path then
      let original_name := basename img_path
      let epub_img_name := "images/" ++ original_name
      let img_data := (fs.lookup img_path).getD ""
      let media_type := (mimetypes_guess_type img_path).getD ""
      let a := setAttr a "src" epub_img_name
      let a := delAttr a "width"
      let a := delAttr a "height"
      (a, [⟨epub_img_name, img_data, media_type⟩])
    else (a, [])

/-- Embedding of the content selection in html_to_epub.create_epub_from_html
(lines 76 to 81): the div with id sbo-rt-content, else the div with id
book-content, else the body, else the whole document. -/
def get_content_div (soup : Node) : Node :=
  match soupFind (isDivWithId "sbo-rt-content") soup with
  | some d => d
  | none =>
    match soupFind (isDivWithId "book-content") soup with
    | some d => d
    | none =>
      match soupFind (isTagB "body") soup with
      | some b => b
      | none => soup

/-- The content node after the removal of link descendants (lines 83 to 85). -/
def epub_content_node (soup : Node) : Node :=
  removeTags ["link"] (get_content_div soup)

/-- Embedding of html_to_epub.create_epub_from_html (lines 50 to 223).  The
input is the parsed document (the file read and the BeautifulSoup parse are
delegated), the path of the HTML file, the filesystem, and the formatted
wall-clock timestamp used in the identifier.  The function body of the source
contains no raise statement, and its only read of a file other than the input
is guarded by the existence check, so the embedding always returns ok. -/
def create_epub_from_html (soup : Node) (html_file : String) (fs : FS)
    (now : String) : Except String EpubBook :=
  let content_div := epub_content_node soup
  let images := collectImgs (fun a => (process_image html_file fs a).2) content_div
  let content_div := mapImgAttrs (fun a => (process_image html_file fs a).1) content_div
  Except.ok {
    identifier := "ddia-ch1-" ++ now,
    title := "Trade-offs in Data Systems Architecture",
    language := "en",
    authors := ["Martin Kleppmann"],
    images := images,
    chapter := ⟨"chap_01.xhtml", "Trade-offs in Data Systems Architecture", content_div⟩,
    spine := ["nav", "chap_01.xhtml"],
    style := ⟨"style/main.css", "text/css", mainCss⟩,
    toc := ["chap_01.xhtml"],
    ncx_added := true,
    nav_added := true }

end html_to_epub

namespace prepare_html

/-- Embedding of prepare_html.clean_html_for_epub (lines 10 to 30), identical
to the function of the same name in html_to_epub. -/
def clean_html_for_epub (soup : Node) : Node :=
  let soup := removeTags ["script", "style"] soup
  let soup := removeTags ["nav", "header", "footer"] soup
  match soupFind (isDivWithId "book-content") soup with
  | some content_div => removeTags ["link"] content_div
  | none =>
    match soupFind (isTagB "body") soup with
    | some b => b
    | none => soup

/-- Embedding of the body of the loop over find_all img in
prepare_html.create_epub_from_html (lines 58 to 82), for one img with
attributes a: on a non-empty src whose resolved path exists, copy the file to
images/ under the output path with the chapter label glued in front of the
basename, rewrite src accordingly, and drop width and height; otherwise leave
the attributes alone and copy nothing. -/
def process_image (html_file output_path chapter_label : String) (fs : FS)
    (a : Attrs) : Attrs × List (String × String) :=
  let src := attrGetD a "src" ""
  if src = "" then (a, [])
  else
    let img_path := imgPathOf html_file src
    if path_exists fs img_path then
      let original_name := basename img_path
      let new_name := chapter_label ++ "_" ++ original_name
      let new_img_path := pathJoin (pathJoin output_path "images") new_name
      let a := setAttr a "src" ("images/" ++ new_name)
      let a := delAttr a "width"
      let a := delAttr a "height"
      (a, [(img_path, new_img_path)])
    else (a, [])

/-- The content node selected by prepare_html.create_epub_from_html (lines 49
to 54): the body when present, else the whole document, with its link
descendants removed.  No lookup by container id happens here. -/
def prepare_content_node (soup : Node) : Node :=
  removeTags ["link"]
    (match soupFind (isTagB "body") soup with
     | some b => b
     | none => soup)

/-- What one run of prepare_html.create_epub_from_html writes: the output
directory it creates, the processed content tree, the image copies performed
as pairs of source and destination path, and the path of the processed HTML
file. -/
structure PrepareOut where
  output_path : String
  content : Node
  copies : List (String × String)
  processed_html_output_path : String

/-- Embedding of prepare_html.create_epub_from_html (lines 33 to 88).  The
input is the parsed document (the file read and the BeautifulSoup parse are
delegated), the path of the HTML file, the output directory, the chapter
label, and the filesystem. -/
def create_epub_from_html (soup : Node) (html_file output_dir chapter_label : String)
    (fs : FS) : PrepareOut :=
  let output_path := pathJoin output_dir chapter_label
  let content_div := prepare_content_node soup
  let copies :=
    collectImgs (fun a => (process_image html_file output_path chapter_label fs a).2) content_div
  let content :=
    mapImgAttrs (fun a => (process_image html_file output_path chapter_label fs a).1) content_div
  { output_path := output_path,
    content := content,
    copies := copies,
    processed_html_output_path := pathJoin output_path "processed_article.html" }

/-- The chapter list of prepare_html.ddia (line 92): preface, the numbers 1 to
14, glossary, index, authors, each later turned into a file name by an
f-string, hence as strings here. -/
def f_names : List String :=
  ["preface", "1", "2", "3", "4", "5", "6", "7", "8", "9", "10", "11", "12",
   "13", "14", "glossary", "index", "authors"]

/-- The HTML files present on disk, already parsed: path to node tree. -/
abbrev Docs := List (String × Node)

/-- One pass of the loop body of prepare_html.ddia (lines 93 to 102) over a
list of chapter names: each name is resolved to ddia/<name>.html; a missing
file raises FileNotFoundError, which aborts the loop; otherwise the chapter
is converted and the loop continues.  The result pairs the outputs produced
before any error with the error, if one was raised. -/
def ddiaRun (docs : Docs) (fs : FS) : List String → List PrepareOut × Option String
  | [] => ([], none)
  | f_name :: rest =>
    let input_path := pathJoin "ddia" (f_name ++ ".html")
    match docs.lookup input_path with
    | none => ([], some ("FileNotFoundError: Input file " ++ input_path ++ " not found."))
    | some soup =>
      let out := create_epub_from_html soup input_path "ddia" ("Ch_" ++ f_name) fs
      let r := ddiaRun docs fs rest
      (out :: r.1, r.2)

/-- Embedding of prepare_html.ddia (lines 90 to 102). -/
def ddia (docs : Docs) (fs : FS) : List PrepareOut × Option String :=
  ddiaRun docs fs f_names

end prepare_html

/-! Concrete documents, filesystems and attribute lists used to evaluate the
embedded functions on closed inputs. -/

/-- A document whose body holds a script, a style and a nav element next to a
paragraph. -/
def c1soup : Node :=
  .element "[document]" [] (nodes [
    .element "html" [] (nodes [
      .element "body" [] (nodes [
        .element "script" [] (nodes [.text "code"]),
        .element "style" [] (nodes [.text "rules"]),
        .element "nav" [] (nodes [.text "menu"]),
        .element "p" [] (nodes [.text "hello"])])])])

/-- Attributes of an img whose referenced file exists: relative src with a
leading dot slash, and fixed width and height. -/
def c2attrs : Attrs :=
  [("src", "./images/pic.png"), ("width", "500"), ("height", "300")]

/-- A document whose body holds exactly that img. -/
def c2soup : Node :=
  .element "[document]" [] (nodes [
    .element "html" [] (nodes [
      .element "body" [] (nodes [
        .element "img" c2attrs (nodes [])])])])

/-- A filesystem carrying the referenced image next to the HTML file. -/
def c2fs : FS := [("ddia/images/pic.png", "PNGDATA")]

/-- Attributes of an img whose referenced file is missing. -/
def c3attrs : Attrs := [("src", "gone.png"), ("width", "9")]

/-- A document whose body holds exactly that img. -/
def c3soup : Node :=
  .element "[document]" [] (nodes [
    .element "html" [] (nodes [
      .element "body" [] (nodes [
        .element "img" c3attrs (nodes [])])])])

/-- A filesystem holding a CSS file at the path of the style item, with
content different from the hardcoded stylesheet. -/
def c4fs : FS := [("style/main.css", "OTHER CSS")]

/-- A minimal document for runs where the content does not matter. -/
def c4soup : Node :=
  .element "[document]" [] (nodes [
    .element "html" [] (nodes [.element "body" [] (nodes [.text "x"])])])

/-- A document whose body holds a div with the known container id
book-content and, next to it, a paragraph outside that div. -/
def c5soup : Node :=
  .element "[document]" [] (nodes [
    .element "html" [] (nodes [
      .element "body" [] (nodes [
        .element "div" [("id", "book-content")] (nodes [.text "inside"]),
        .element "p" [("id", "outside")] (nodes [.text "outside the div"])])])])

/-- The div with id sbo-rt-content used by the selection witness. -/
def c5wdiv : Node :=
  .element "div" [("id", "sbo-rt-content")] (nodes [.text "main"])

/-- The body wrapping that div. -/
def c5wbody : Node :=
  .element "body" [] (nodes [c5wdiv])

/-- A document whose body holds the div with id sbo-rt-content. -/
def c5wsoup : Node :=
  .element "[document]" [] (nodes [.element "html" [] (nodes [c5wbody])])

/-- A parsed-document store holding every chapter file that ddia expects. -/
def c6docs : prepare_html.Docs :=
  prepare_html.f_names.map (fun n => (pathJoin "ddia" (n ++ ".html"), Node.text "doc"))

/-- A parsed-document store holding only the first chapter file of ddia. -/
def c7docs : prepare_html.Docs := [("ddia/preface.html", Node.text "doc")]

/-- Attributes of an img with no src attribute at all. -/
def c8attrs : Attrs := [("width", "700"), ("height", "200")]

/-- A document whose body holds that src-less img. -/
def c8soup : Node :=
  .element "[document]" [] (nodes [
    .element "html" [] (nodes [
      .element "body" [] (nodes [
        .element "img" c8attrs (nodes [])])])])

/-! Helper lemmas about attribute dictionaries, the img traversal and the
ddia loop. -/

theorem attrLookup_setAttr_self (a : Attrs) (key v : String) :
    attrLookup (setAttr a key v) key = some v := by
  induction a with
  | nil => simp [setAttr, attrLookup]
  | cons hd tl ih =>
    obtain ⟨k, w⟩ := hd
    by_cases h : k = key
    · simp [setAttr, h, attrLookup]
    · simp [setAttr, h, attrLookup, ih]

theorem attrLookup_delAttr_self (a : Attrs) (key : String) :
    attrLookup (delAttr a key) key = none := by
  induction a with
  | nil => simp [delAttr, attrLookup]
  | cons hd tl ih =>
    obtain ⟨k, w⟩ := hd
    by_cases h : k = key
    · simp [delAttr, h, ih]
    · simp [delAttr, h, attrLookup, ih]

theorem attrLookup_delAttr_ne (a : Attrs) (k key : String) (h : k ≠ key) :
    attrLookup (delAttr a key) k = attrLookup a k := by
  induction a with
  | nil => simp [delAttr]
  | cons hd tl ih =>
    obtain ⟨k2, w⟩ := hd
    by_cases h2 : k2 = key
    · subst h2
      have h3 : ¬ (k2 = k) := fun he => h (he ▸ rfl)
      simp [delAttr, attrLookup, h3, ih]
    · simp only [delAttr, h2, if_false]
      by_cases h4 : k2 = k
      · simp [attrLookup, h4]
      · simp [attrLookup, h4, ih]

theorem childrenOf_mapImgAttrs (f : Attrs → Attrs) (n : Node) :
    childrenOf (mapImgAttrs f n) = mapImgAttrsIn f (childrenOf n) := by
  cases n <;> rfl

theorem hasElemIn_mapImgAttrsIn (f : Attrs → Attrs) (a : Attrs) :
    ∀ l : NodeList, hasElemIn "img" a l = true →
      hasElemIn "img" (f a) (mapImgAttrsIn f l) = true
  | .nil => by simp [hasElemIn]
  | .cons (.text s) rest => by
    intro h
    simp only [hasElemIn, mapImgAttrsIn] at h ⊢
    exact hasElemIn_mapImgAttrsIn f a rest h
  | .cons (.element tag b cs) rest => by
    intro h
    simp only [hasElemIn, mapImgAttrsIn, Bool.or_eq_true, Bool.and_eq_true,
      decide_eq_true_eq] at h ⊢
    rcases h with (⟨ht, hb⟩ | hcs) | hrest
    · subst ht; subst hb
      exact Or.inl (Or.inl ⟨rfl, by simp⟩)
    · exact Or.inl (Or.inr (hasElemIn_mapImgAttrsIn f a cs hcs))
    · exact Or.inr (hasElemIn_mapImgAttrsIn f a rest hrest)

theorem process_image_unchanged_epub (html_file : String) (fs : FS) (a : Attrs)
    (h : attrGetD a "src" "" = "" ∨
      path_exists fs (imgPathOf html_file (attrGetD a "src" "")) = false) :
    html_to_epub.process_image html_file fs a = (a, []) := by
  rcases h with h | h
  · simp [html_to_epub.process_image, h]
  · by_cases hs : attrGetD a "src" "" = ""
    · simp [html_to_epub.process_image, hs]
    · simp [html_to_epub.process_image, hs, h]

theorem process_image_unchanged_prepare (html_file output_path chapter_label : String)
    (fs : FS) (a : Attrs)
    (h : attrGetD a "src" "" = "" ∨
      path_exists fs (imgPathOf html_file (attrGetD a "src" "")) = false) :
    prepare_html.process_image html_file output_path chapter_label fs a = (a, []) := by
  rcases h with h | h
  · simp [prepare_html.process_image, h]
  · by_cases hs : attrGetD a "src" "" = ""
    · simp [prepare_html.process_image, hs]
    · simp [prepare_html.process_image, hs, h]

theorem process_image_rewrite_epub (html_file : String) (fs : FS) (a : Attrs)
    (hsrc : attrGetD a "src" "" ≠ "")
    (hex : path_exists fs (imgPathOf html_file (attrGetD a "src" "")) = true) :
    (html_to_epub.process_image html_file fs a).1 =
      delAttr (delAttr (setAttr a "src"
        ("images/" ++ basename (imgPathOf html_file (attrGetD a "src" "")))) "width") "height" := by
  simp [html_to_epub.process_image, hsrc, hex]

theorem process_image_rewrite_prepare (html_file output_path chapter_label : String)
    (fs : FS) (a : Attrs)
    (hsrc : attrGetD a "src" "" ≠ "")
    (hex : path_exists fs (imgPathOf html_file (attrGetD a "src" "")) = true) :
    (prepare_html.process_image html_file output_path chapter_label fs a).1 =
      delAttr (delAttr (setAttr a "src"
        ("images/" ++ (chapter_label ++ "_" ++
          basename (imgPathOf html_file (attrGetD a "src" ""))))) "width") "height" := by
  simp [prepare_html.process_image, hsrc, hex]

theorem rewritten_attrs_spec (a : Attrs) (v : String) :
    attrLookup (delAttr (delAttr (setAttr a "src" v) "width") "height") "src" = some v ∧
    attrLookup (delAttr (delAttr (setAttr a "src" v) "width") "height") "width" = none ∧
    attrLookup (delAttr (delAttr (setAttr a "src" v) "width") "height") "height" = none := by
  refine ⟨?_, ?_, ?_⟩
  · rw [attrLookup_delAttr_ne _ _ _ (by decide), attrLookup_delAttr_ne _ _ _ (by decide),
      attrLookup_setAttr_self]
  · rw [attrLookup_delAttr_ne _ _ _ (by decide), attrLookup_delAttr_self]
  · rw [attrLookup_delAttr_self]

theorem ddiaRun_all_present (docs : prepare_html.Docs) (fs : FS) :
    ∀ names : List String,
      (∀ n ∈ names, (docs.lookup (pathJoin "ddia" (n ++ ".html"))).isSome = true) →
      (prepare_html.ddiaRun docs fs names).2 = none ∧
      (prepare_html.ddiaRun docs fs names).1.map (fun o => o.output_path)
        = names.map (fun n => pathJoin "ddia" ("Ch_" ++ n))
  | [], _ => by simp [prepare_html.ddiaRun]
  | n :: rest, h => by
    have hn := h n (List.mem_cons_self n rest)
    obtain ⟨doc, hdoc⟩ := Option.isSome_iff_exists.mp hn
    have ih := ddiaRun_all_present docs fs rest (fun m hm => h m (List.mem_cons_of_mem n hm))
    simp [prepare_html.ddiaRun, hdoc, ih.1, ih.2, prepare_html.create_epub_from_html]

theorem ddiaRun_abort (docs : prepare_html.Docs) (fs : FS) (name : String)
    (post : List String)
    (hmiss : docs.lookup (pathJoin "ddia" (name ++ ".html")) = none) :
    ∀ pre : List String,
      (∀ m ∈ pre, (docs.lookup (pathJoin "ddia" (m ++ ".html"))).isSome = true) →
      (prepare_html.ddiaRun docs fs (pre ++ name :: post)).2
        = some ("FileNotFoundError: Input file " ++ pathJoin "ddia" (name ++ ".html")
            ++ " not found.") ∧
      (prepare_html.ddiaRun docs fs (pre ++ name :: post)).1.length = pre.length
  | [], _ => by simp [prepare_html.ddiaRun, hmiss]
  | m :: pre, h => by
    have hm := h m (List.mem_cons_self m pre)
    obtain ⟨doc, hdoc⟩ := Option.isSome_iff_exists.mp hm
    have ih := ddiaRun_abort docs fs name post hmiss pre
      (fun x hx => h x (List.mem_cons_of_mem m hx))
    simp [prepare_html.ddiaRun, hdoc, ih.1, ih.2]

/-! The claims. -/

/-- C1: the claim says the chapter content written out by the conversion
pipeline contains no script, style or nav elements.  The code violates it:
neither variant of create_epub_from_html invokes clean_html_for_epub (which
does remove those elements and is dead code in both files), so on a document
whose body holds a script, a style and a nav element, all three survive into
the chapter content written by both variants, while clean_html_for_epub of the
same document would contain none of them. -/
theorem c1_disallowed_nodes_survive :
    ((html_to_epub.create_epub_from_html c1soup "article.html" [] "20250101000000").toOption.map
      (fun bk => (containsTag "script" bk.chapter.content,
        containsTag "style" bk.chapter.content,
        containsTag "nav" bk.chapter.content)) = some (true, true, true)) ∧
    ((containsTag "script"
        (prepare_html.create_epub_from_html c1soup "ddia/preface.html" "ddia" "Ch_preface" []).content,
      containsTag "style"
        (prepare_html.create_epub_from_html c1soup "ddia/preface.html" "ddia" "Ch_preface" []).content,
      containsTag "nav"
        (prepare_html.create_epub_from_html c1soup "ddia/preface.html" "ddia" "Ch_preface" []).content)
      = (true, true, true)) ∧
    ((containsTag "script" (html_to_epub.clean_html_for_epub c1soup),
      containsTag "style" (html_to_epub.clean_html_for_epub c1soup),
      containsTag "nav" (html_to_epub.clean_html_for_epub c1soup)) = (false, false, false)) ∧
    ((containsTag "script" (prepare_html.clean_html_for_epub c1soup),
      containsTag "style" (prepare_html.clean_html_for_epub c1soup),
      containsTag "nav" (prepare_html.clean_html_for_epub c1soup)) = (false, false, false)) := by
  decide

/-- C4 (amended): the stylesheet bundled by html_to_epub.create_epub_from_html
is a fixed CSS string hardcoded in the script, embedded verbatim as the style
item style/main.css with media type text/css, for every input and every
filesystem; it is not read from a path on disk. -/
theorem c4_style_is_hardcoded_constant (soup : Node) (html_file : String) (fs : FS)
    (now : String) :
    (html_to_epub.create_epub_from_html soup html_file fs now).toOption.map (fun bk => bk.style)
      = some ⟨"style/main.css", "text/css", mainCss⟩ := rfl

/-- C4 (counterexample): with a CSS file on disk at the very path of the style
item and holding different content, the produced style item still carries the
hardcoded string, which differs from the on-disk content, and the style item
equals the one produced on an empty filesystem, so it is not read from disk. -/
theorem c4_counterexample :
    ((html_to_epub.create_epub_from_html c4soup "article.html" c4fs "t").toOption.map
      (fun bk => bk.style.content) = some mainCss) ∧
    c4fs.lookup "style/main.css" = some "OTHER CSS" ∧
    ¬ (mainCss = "OTHER CSS") ∧
    ((html_to_epub.create_epub_from_html c4soup "article.html" c4fs "t").toOption.map
        (fun bk => bk.style)
      = (html_to_epub.create_epub_from_html c4soup "article.html" [] "t").toOption.map
        (fun bk => bk.style)) := by
  refine ⟨rfl, rfl, ?_, rfl⟩
  decide

/-- C9: the path normalization shared by both variants removes every
occurrence of the dot-slash pattern anywhere in the src string, not only a
leading one: a src containing the pattern in the middle, such as a./b, is
resolved as ab joined to the directory of the HTML file. -/
theorem c9_dot_slash_removed_everywhere :
    (∀ html_file : String, imgPathOf html_file "a./b" = pathJoin (dirname html_file) "ab") ∧
    replaceDotSlash "a./b" = "ab" ∧
    replaceDotSlash "./images/x.png" = "images/x.png" ∧
    replaceDotSlash "a./b./c" = "abc" ∧
    imgPathOf "d/f.html" "a./b" = "d/ab" := by
  have h : replaceDotSlash "a./b" = "ab" := by decide
  refine ⟨fun f => ?_, by decide, by decide, by decide, by decide⟩
  show pathJoin (dirname f) (replaceDotSlash "a./b") = pathJoin (dirname f) "ab"
  rw [h]

/-- C10: the book identifier embeds the formatted wall-clock time of the
invocation after the fixed root ddia-ch1-, so two runs on the same input
document, the same file path and the same filesystem, at different times,
produce books with different identifiers. -/
theorem c10_identifier_not_deterministic (soup : Node) (html_file : String) (fs : FS)
    (now1 now2 : String) (h : now1 ≠ now2) :
    (html_to_epub.create_epub_from_html soup html_file fs now1).toOption.map
        (fun bk => bk.identifier)
      ≠ (html_to_epub.create_epub_from_html soup html_file fs now2).toOption.map
        (fun bk => bk.identifier) := by
  intro heq
  apply h
  have h1 : "ddia-ch1-" ++ now1 = "ddia-ch1-" ++ now2 := by
    simpa [html_to_epub.create_epub_from_html, Except.toOption] using heq
  have h2 := congrArg String.data h1
  simp only [String.data_append] at h2
  have h3 : now1.data = now2.data := List.append_cancel_left h2
  cases now1
  cases now2
  simp_all

/-- C10 (witness): two concrete timestamps one second apart give different
identifiers for the same input. -/
theorem c10_witness :
    (html_to_epub.create_epub_from_html (Node.text "x") "article.html" [] "20250101000000").toOption.map
        (fun bk => bk.identifier)
      ≠ (html_to_epub.create_epub_from_html (Node.text "x") "article.html" [] "20250101000001").toOption.map
        (fun bk => bk.identifier) :=
  c10_identifier_not_deterministic (Node.text "x") "article.html" [] "20250101000000"
    "20250101000001" (by decide)

/-- C5 (amended): html_to_epub.create_epub_from_html locates the content node
by trying the div with id sbo-rt-content, then the div with id book-content,
then the body, then the whole document, and its chapter content is derived
from that node only; prepare_html.create_epub_from_html selects the body (or
the whole document when there is no body) by tag, without any lookup by
container id, and its output content is derived from that node only. -/
theorem c5_content_selection (soup d1 d2 b : Node)
    (html_file output_dir chapter_label now : String) (fs : FS) :
    (soupFind (isDivWithId "sbo-rt-content") soup = some d1 →
      html_to_epub.get_content_div soup = d1) ∧
    (soupFind (isDivWithId "sbo-rt-content") soup = none →
      soupFind (isDivWithId "book-content") soup = some d2 →
      html_to_epub.get_content_div soup = d2) ∧
    (soupFind (isDivWithId "sbo-rt-content") soup = none →
      soupFind (isDivWithId "book-content") soup = none →
      soupFind (isTagB "body") soup = some b →
      html_to_epub.get_content_div soup = b) ∧
    (soupFind (isDivWithId "sbo-rt-content") soup = none →
      soupFind (isDivWithId "book-content") soup = none →
      soupFind (isTagB "body") soup = none →
      html_to_epub.get_content_div soup = soup) ∧
    ((html_to_epub.create_epub_from_html soup html_file fs now).toOption.map
        (fun bk => bk.chapter.content)
      = some (mapImgAttrs (fun a => (html_to_epub.process_image html_file fs a).1)
          (html_to_epub.epub_content_node soup))) ∧
    (soupFind (isTagB "body") soup = some b →
      prepare_html.prepare_content_node soup = removeTags ["link"] b) ∧
    (soupFind (isTagB "body") soup = none →
      prepare_html.prepare_content_node soup = removeTags ["link"] soup) ∧
    ((prepare_html.create_epub_from_html soup html_file output_dir chapter_label fs).content
      = mapImgAttrs (fun a =>
          (prepare_html.process_image html_file (pathJoin output_dir chapter_label)
            chapter_label fs a).1)
        (prepare_html.prepare_content_node soup)) := by
  refine ⟨?_, ?_, ?_, ?_, rfl, ?_, ?_, rfl⟩
  · intro h1; simp [html_to_epub.get_content_div, h1]
  · intro h1 h2; simp [html_to_epub.get_content_div, h1, h2]
  · intro h1 h2 h3; simp [html_to_epub.get_content_div, h1, h2, h3]
  · intro h1 h2 h3; simp [html_to_epub.get_content_div, h1, h2, h3]
  · intro h; simp [prepare_html.prepare_content_node, h]
  · intro h; simp [prepare_html.prepare_content_node, h]

/-- C5 (counterexample): the claim says prepare_html.create_epub_from_html
also locates the content node by a known container id and carries only
content inside that node.  On a document whose body holds a div with the
known id book-content and, next to it, a paragraph outside that div, the
output content still contains the outside paragraph: the selection is the
body, not the id-located div. -/
theorem c5_counterexample :
    (soupFind (isDivWithId "book-content") c5soup).isSome = true ∧
    hasElemIn "p" [("id", "outside")]
      (childrenOf
        (prepare_html.create_epub_from_html c5soup "f.html" "out" "Ch_1" []).content) = true := by
  decide

/-- C5 (witness): on a document whose body holds the div with id
sbo-rt-content, the html_to_epub selection returns that div, and the
prepare_html content node is the body with link descendants removed. -/
theorem c5_witness :
    html_to_epub.get_content_div c5wsoup = c5wdiv ∧
    prepare_html.prepare_content_node c5wsoup = removeTags ["link"] c5wbody :=
  ⟨(c5_content_selection c5wsoup c5wdiv c5wdiv c5wbody "f.html" "out" "Ch_1" "t" []).1 rfl,
   (c5_content_selection c5wsoup c5wdiv c5wdiv c5wbody "f.html" "out" "Ch_1" "t" []).2.2.2.2.2.1 rfl⟩

/-- C2: for an img whose src is non-empty and whose resolved path exists on
disk, both variants rewrite the img src to the normalized images/ location
(the original basename in html_to_epub, the chapter label glued in front of
the basename in prepare_html) and remove its width and height attributes;
every img with those attributes inside the selected content node appears in
the output with exactly the rewritten attributes. -/
theorem c2_img_rewritten_and_resized
    (soup : Node) (html_file now output_dir chapter_label : String) (fs : FS) (a : Attrs)
    (hsrc : attrGetD a "src" "" ≠ "")
    (hex : path_exists fs (imgPathOf html_file (attrGetD a "src" "")) = true) :
    (hasElemIn "img" a (childrenOf (html_to_epub.epub_content_node soup)) = true →
      (html_to_epub.create_epub_from_html soup html_file fs now).toOption.map
        (fun bk => hasElemIn "img" ((html_to_epub.process_image html_file fs a).1)
          (childrenOf bk.chapter.content)) = some true) ∧
    attrLookup (html_to_epub.process_image html_file fs a).1 "src"
      = some ("images/" ++ basename (imgPathOf html_file (attrGetD a "src" ""))) ∧
    attrLookup (html_to_epub.process_image html_file fs a).1 "width" = none ∧
    attrLookup (html_to_epub.process_image html_file fs a).1 "height" = none ∧
    (hasElemIn "img" a (childrenOf (prepare_html.prepare_content_node soup)) = true →
      hasElemIn "img"
        ((prepare_html.process_image html_file (pathJoin output_dir chapter_label)
          chapter_label fs a).1)
        (childrenOf
          (prepare_html.create_epub_from_html soup html_file output_dir chapter_label fs).content)
        = true) ∧
    attrLookup (prepare_html.process_image html_file (pathJoin output_dir chapter_label)
        chapter_label fs a).1 "src"
      = some ("images/" ++ (chapter_label ++ "_" ++
          basename (imgPathOf html_file (attrGetD a "src" "")))) ∧
    attrLookup (prepare_html.process_image html_file (pathJoin output_dir chapter_label)
        chapter_label fs a).1 "width" = none ∧
    attrLookup (prepare_html.process_image html_file (pathJoin output_dir chapter_label)
        chapter_label fs a).1 "height" = none := by
  have he := process_image_rewrite_epub html_file fs a hsrc hex
  have hp := process_image_rewrite_prepare html_file (pathJoin output_dir chapter_label)
    chapter_label fs a hsrc hex
  have se := rewritten_attrs_spec a
    ("images/" ++ basename (imgPathOf html_file (attrGetD a "src" "")))
  have sp := rewritten_attrs_spec a
    ("images/" ++ (chapter_label ++ "_" ++ basename (imgPathOf html_file (attrGetD a "src" ""))))
  refine ⟨?_, ?_, ?_, ?_, ?_, ?_, ?_, ?_⟩
  · intro hmem
    have hkey := hasElemIn_mapImgAttrsIn
      (fun x => (html_to_epub.process_image html_file fs x).1) a
      (childrenOf (html_to_epub.epub_content_node soup)) hmem
    show (some (hasElemIn "img" ((html_to_epub.process_image html_file fs a).1)
      (childrenOf (mapImgAttrs (fun x => (html_to_epub.process_image html_file fs x).1)
        (html_to_epub.epub_content_node soup)))) : Option Bool) = some true
    rw [childrenOf_mapImgAttrs]
    exact congrArg some hkey
  · rw [he]; exact se.1
  · rw [he]; exact se.2.1
  · rw [he]; exact se.2.2
  · intro hmem
    have hkey := hasElemIn_mapImgAttrsIn
      (fun x => (prepare_html.process_image html_file (pathJoin output_dir chapter_label)
        chapter_label fs x).1) a
      (childrenOf (prepare_html.prepare_content_node soup)) hmem
    show hasElemIn "img"
      ((prepare_html.process_image html_file (pathJoin output_dir chapter_label)
        chapter_label fs a).1)
      (childrenOf (mapImgAttrs
        (fun x => (prepare_html.process_image html_file (pathJoin output_dir chapter_label)
          chapter_label fs x).1)
        (prepare_html.prepare_content_node soup))) = true
    rw [childrenOf_mapImgAttrs]
    exact hkey
  · rw [hp]; exact sp.1
  · rw [hp]; exact sp.2.1
  · rw [hp]; exact sp.2.2

/-- C2 (witness): a concrete img with a dot-slash src, width and height,
whose file exists next to the HTML file, is rewritten by both variants. -/
theorem c2_witness :
    attrLookup (html_to_epub.process_image "ddia/1.html" c2fs c2attrs).1 "src"
      = some "images/pic.png" ∧
    attrLookup (html_to_epub.process_image "ddia/1.html" c2fs c2attrs).1 "width" = none ∧
    attrLookup (html_to_epub.process_image "ddia/1.html" c2fs c2attrs).1 "height" = none ∧
    ((html_to_epub.create_epub_from_html c2soup "ddia/1.html" c2fs "t").toOption.map
      (fun bk => hasElemIn "img" ((html_to_epub.process_image "ddia/1.html" c2fs c2attrs).1)
        (childrenOf bk.chapter.content)) = some true) ∧
    attrLookup (prepare_html.process_image "ddia/1.html" (pathJoin "ddia" "Ch_1") "Ch_1"
        c2fs c2attrs).1 "src" = some "images/Ch_1_pic.png" ∧
    hasElemIn "img"
      ((prepare_html.process_image "ddia/1.html" (pathJoin "ddia" "Ch_1") "Ch_1" c2fs c2attrs).1)
      (childrenOf
        (prepare_html.create_epub_from_html c2soup "ddia/1.html" "ddia" "Ch_1" c2fs).content)
      = true := by
  have h := c2_img_rewritten_and_resized c2soup "ddia/1.html" "t" "ddia" "Ch_1" c2fs c2attrs
    (by decide) (by decide)
  exact ⟨h.2.1, h.2.2.1, h.2.2.2.1, h.1 (by decide), h.2.2.2.2.2.1, h.2.2.2.2.1 (by decide)⟩

theorem hasElemIn_mapImgAttrsIn_id (f : Attrs → Attrs) (a : Attrs) (l : NodeList)
    (hfa : f a = a) (h : hasElemIn "img" a l = true) :
    hasElemIn "img" a (mapImgAttrsIn f l) = true := by
  have h2 := hasElemIn_mapImgAttrsIn f a l h
  rwa [hfa] at h2

/-- C3 (amended): the claim says the html_to_epub variant raises an error on a
missing image while the prepare_html variant silently skips it.  In fact BOTH
variants silently skip a missing image: html_to_epub.create_epub_from_html
returns normally and emits no image item for it, and
prepare_html.create_epub_from_html copies nothing for it; neither raises, and
in both the img attributes are left as they were. -/
theorem c3_missing_image_skipped
    (soup : Node) (html_file now output_dir chapter_label : String) (fs : FS) (a : Attrs)
    (hex : path_exists fs (imgPathOf html_file (attrGetD a "src" "")) = false) :
    (∃ bk, html_to_epub.create_epub_from_html soup html_file fs now = Except.ok bk) ∧
    html_to_epub.process_image html_file fs a = (a, []) ∧
    prepare_html.process_image html_file (pathJoin output_dir chapter_label)
      chapter_label fs a = (a, []) :=
  ⟨⟨_, rfl⟩, process_image_unchanged_epub html_file fs a (Or.inr hex),
    process_image_unchanged_prepare html_file (pathJoin output_dir chapter_label)
      chapter_label fs a (Or.inr hex)⟩

/-- C3 (counterexample): on a concrete document with an img whose resolved
path is absent from the filesystem, html_to_epub.create_epub_from_html
returns normally (it does not raise): the result holds zero image items and
still contains the img with its original attributes. -/
theorem c3_counterexample :
    (html_to_epub.create_epub_from_html c3soup "dir/f.html" [] "t").toOption.map
      (fun bk => (bk.images.length, hasElemIn "img" c3attrs (childrenOf bk.chapter.content)))
      = some (0, true) := by
  decide

/-- C3 (witness): the amended statement evaluated at the concrete
missing-image input. -/
theorem c3_witness :
    (∃ bk, html_to_epub.create_epub_from_html c3soup "dir/f.html" [] "t" = Except.ok bk) ∧
    html_to_epub.process_image "dir/f.html" [] c3attrs = (c3attrs, []) ∧
    prepare_html.process_image "dir/f.html" (pathJoin "out" "Ch_1") "Ch_1" [] c3attrs
      = (c3attrs, []) :=
  c3_missing_image_skipped c3soup "dir/f.html" "t" "out" "Ch_1" [] c3attrs (by decide)

/-- C8: an img whose src attribute is missing or empty, or whose resolved
path does not exist on disk, is left entirely unchanged by both variants: the
per-img transform returns the attributes untouched and emits nothing, and an
img with those attributes inside the selected content node appears in the
output with exactly the same attributes, so its src is not rewritten and its
width and height are retained. -/
theorem c8_untouched_img_frame
    (soup : Node) (html_file now output_dir chapter_label : String) (fs : FS) (a : Attrs)
    (h : attrGetD a "src" "" = "" ∨
      path_exists fs (imgPathOf html_file (attrGetD a "src" "")) = false) :
    html_to_epub.process_image html_file fs a = (a, []) ∧
    prepare_html.process_image html_file (pathJoin output_dir chapter_label)
      chapter_label fs a = (a, []) ∧
    (hasElemIn "img" a (childrenOf (html_to_epub.epub_content_node soup)) = true →
      (html_to_epub.create_epub_from_html soup html_file fs now).toOption.map
        (fun bk => hasElemIn "img" a (childrenOf bk.chapter.content)) = some true) ∧
    (hasElemIn "img" a (childrenOf (prepare_html.prepare_content_node soup)) = true →
      hasElemIn "img" a
        (childrenOf
          (prepare_html.create_epub_from_html soup html_file output_dir chapter_label fs).content)
        = true) := by
  have he := process_image_unchanged_epub html_file fs a h
  have hp := process_image_unchanged_prepare html_file (pathJoin output_dir chapter_label)
    chapter_label fs a h
  refine ⟨he, hp, ?_, ?_⟩
  · intro hmem
    have hkey := hasElemIn_mapImgAttrsIn_id
      (fun x => (html_to_epub.process_image html_file fs x).1) a
      (childrenOf (html_to_epub.epub_content_node soup))
      (by show (html_to_epub.process_image html_file fs a).1 = a; rw [he]) hmem
    show (some (hasElemIn "img" a
      (childrenOf (mapImgAttrs (fun x => (html_to_epub.process_image html_file fs x).1)
        (html_to_epub.epub_content_node soup)))) : Option Bool) = some true
    rw [childrenOf_mapImgAttrs]
    exact congrArg some hkey
  · intro hmem
    have hkey := hasElemIn_mapImgAttrsIn_id
      (fun x => (prepare_html.process_image html_file (pathJoin output_dir chapter_label)
        chapter_label fs x).1) a
      (childrenOf (prepare_html.prepare_content_node soup))
      (by show (prepare_html.process_image html_file (pathJoin output_dir chapter_label)
        chapter_label fs a).1 = a; rw [hp]) hmem
    show hasElemIn "img" a
      (childrenOf (mapImgAttrs
        (fun x => (prepare_html.process_image html_file (pathJoin output_dir chapter_label)
          chapter_label fs x).1)
        (prepare_html.prepare_content_node soup))) = true
    rw [childrenOf_mapImgAttrs]
    exact hkey

/-- C8 (witness): a concrete img with no src attribute keeps its width and
height and is carried unchanged through both variants. -/
theorem c8_witness :
    html_to_epub.process_image "f.html" [] c8attrs = (c8attrs, []) ∧
    prepare_html.process_image "f.html" (pathJoin "out" "Ch_2") "Ch_2" [] c8attrs
      = (c8attrs, []) ∧
    ((html_to_epub.create_epub_from_html c8soup "f.html" [] "t").toOption.map
      (fun bk => hasElemIn "img" c8attrs (childrenOf bk.chapter.content)) = some true) ∧
    hasElemIn "img" c8attrs
      (childrenOf (prepare_html.create_epub_from_html c8soup "f.html" "out" "Ch_2" []).content)
      = true := by
  have h := c8_untouched_img_frame c8soup "f.html" "t" "out" "Ch_2" [] c8attrs
    (Or.inl (by decide))
  exact ⟨h.1, h.2.1, h.2.2.1 (by decide), h.2.2.2 (by decide)⟩

/-- C6: the spine produced by html_to_epub.create_epub_from_html is the nav
document followed by exactly the one declared chapter, and its table of
contents lists exactly that chapter; when every declared chapter file exists,
prepare_html.ddia raises nothing and produces exactly one output per declared
chapter, in the declared list order. -/
theorem c6_one_entry_per_chapter_in_order
    (soup : Node) (html_file now : String) (fs fs2 : FS) (docs : prepare_html.Docs)
    (hall : ∀ n ∈ prepare_html.f_names,
      (docs.lookup (pathJoin "ddia" (n ++ ".html"))).isSome = true) :
    ((html_to_epub.create_epub_from_html soup html_file fs now).toOption.map
      (fun bk => (bk.spine, bk.chapter.file_name, bk.toc))
      = some (["nav", "chap_01.xhtml"], "chap_01.xhtml", ["chap_01.xhtml"])) ∧
    (prepare_html.ddia docs fs2).2 = none ∧
    (prepare_html.ddia docs fs2).1.map (fun o => o.output_path)
      = prepare_html.f_names.map (fun n => pathJoin "ddia" ("Ch_" ++ n)) := by
  have h := ddiaRun_all_present docs fs2 prepare_html.f_names hall
  exact ⟨rfl, h.1, h.2⟩

/-- C6 (witness): with every chapter file present, ddia runs to the end and
its outputs follow the declared order. -/
theorem c6_witness :
    (prepare_html.ddia c6docs []).2 = none ∧
    (prepare_html.ddia c6docs []).1.map (fun o => o.output_path)
      = prepare_html.f_names.map (fun n => pathJoin "ddia" ("Ch_" ++ n)) := by
  have h := c6_one_entry_per_chapter_in_order (Node.text "x") "f.html" "t" [] [] c6docs
    (by decide)
  exact ⟨h.2.1, h.2.2⟩

/-- C7: when the input HTML file of some chapter in the ddia list is missing
and every chapter before it is present, the run raises FileNotFoundError and
exactly the chapters before that position have been processed: no chapter at
or after it is processed, with no retry and no continuation. -/
theorem c7_missing_chapter_aborts
    (docs : prepare_html.Docs) (fs : FS) (pre post : List String) (name : String)
    (hsplit : prepare_html.f_names = pre ++ name :: post)
    (hpre : ∀ m ∈ pre, (docs.lookup (pathJoin "ddia" (m ++ ".html"))).isSome = true)
    (hmiss : docs.lookup (pathJoin "ddia" (name ++ ".html")) = none) :
    (prepare_html.ddia docs fs).2
      = some ("FileNotFoundError: Input file " ++ pathJoin "ddia" (name ++ ".html")
          ++ " not found.") ∧
    (prepare_html.ddia docs fs).1.length = pre.length := by
  have h := ddiaRun_abort docs fs name post hmiss pre hpre
  have e : prepare_html.ddia docs fs
      = prepare_html.ddiaRun docs fs (pre ++ name :: post) := by
    unfold prepare_html.ddia
    rw [hsplit]
  rw [e]
  exact h

/-- C7 (witness): with only the preface file present, the run aborts on the
missing first numbered chapter after processing exactly one chapter. -/
theorem c7_witness :
    (prepare_html.ddia c7docs []).2
      = some "FileNotFoundError: Input file ddia/1.html not found." ∧
    (prepare_html.ddia c7docs []).1.length = 1 := by
  have h := c7_missing_chapter_aborts c7docs [] ["preface"]
    ["2", "3", "4", "5", "6", "7", "8", "9", "10", "11", "12", "13", "14",
     "glossary", "index", "authors"] "1" rfl (by decide) rfl
  exact ⟨h.1, h.2⟩
